import Mathlib

/-!
Verification of the Flappy-Nerd repository against its specification.

The repository holds two independent implementations of the same game:
Variant A (`src/web-rust/src/game.rs` simulation plus `src/web-rust/src/hud.rs`
HUD) and Variant B (the monolith in `src/web-rust/src/lib.rs`).

Modelling conventions for the shallow embedding:
* the source's `f32` values are embedded as exact rationals (`ℚ`); the
  arithmetic the claims exercise stays well inside the exactly representable
  regime, and none of the claims is about rounding;
* `rand`/`Math.random` sampling is embedded by threading an explicit stream
  `ℕ → ℚ` of raw sample values through the state: `gen_range lo hi` clamps the
  next raw value into `[lo, hi]`, so every value of the closed range (and only
  such values) is reachable — a sound nondeterministic model of the sampler;
* `f32::sin` (used only for the decorative Ready-state bob) is an opaque
  parameter `sinF : ℚ → ℚ` of the step function; no claim depends on its value;
* `u32` scores are `ℕ`, Variant B's `i32` score is `ℤ`.
-/

set_option maxHeartbeats 1000000

namespace FlappyNerd

/-- Rust's `f32::clamp(lo, hi)` (requires `lo ≤ hi` at all call sites). -/
def clampQ (x lo hi : ℚ) : ℚ := min (max x lo) hi

/-! ## Variant B frame timer (`lib.rs`, `FrameTimer`) -/

namespace VB

/-- Source `STEP` constant of `lib.rs`: the fixed simulation step, 1/120 s. -/
def STEP : ℚ := 1 / 120

/-- Source `FrameTimer` of `lib.rs` (all fields `f32` except the `u32` frame count). -/
structure FrameTimer where
  accumulator : ℚ
  fps_accum : ℚ
  fps_frames : ℕ
  fps : ℚ
deriving Repr, DecidableEq

/-- Source `FrameTimer::accumulate` from `lib.rs`.  The `!dt.is_finite()` early
return of the source cannot fire in the rational model (ℚ has no NaN or
infinity), so it is dropped. -/
def FrameTimer.accumulate (dt : ℚ) (t : FrameTimer) : FrameTimer :=
  let t := { t with
    accumulator := t.accumulator + dt
    fps_accum := t.fps_accum + dt
    fps_frames := t.fps_frames + 1 }
  let maxAccum := STEP * 5
  let t := if maxAccum < t.accumulator then { t with accumulator := maxAccum } else t
  if t.fps_accum ≥ 1 / 2 then
    { t with
      fps := (t.fps_frames : ℚ) / max t.fps_accum (1 / 100000)
      fps_accum := 0
      fps_frames := 0 }
  else t

/-- Folding `FrameTimer::accumulate` over a list of frame deltas. -/
def FrameTimer.accumulateAll (ds : List ℚ) (t : FrameTimer) : FrameTimer :=
  ds.foldl (fun t d => FrameTimer.accumulate d t) t

/-- Number of iterations of the fixed-step drain loop in `AppState::frame`
(`while self.timer.accumulator >= STEP { ...; self.timer.accumulator -= STEP }`),
as a function of the accumulator value when the loop is entered. -/
def drainCount (acc : ℚ) : ℕ :=
  if STEP ≤ acc then drainCount (acc - STEP) + 1 else 0
termination_by (⌈acc * 120⌉).toNat
decreasing_by
  have h1 : (acc - STEP) * 120 = acc * 120 - 1 := by
    simp only [STEP]; ring
  have h2 : ⌈(acc - STEP) * 120⌉ = ⌈acc * 120⌉ - 1 := by
    rw [h1]
    exact_mod_cast Int.ceil_sub_int (acc * 120) 1
  have h3 : (1 : ℚ) / 120 ≤ acc := by simpa [STEP] using ‹STEP ≤ acc›
  have h4 : (1 : ℤ) ≤ ⌈acc * 120⌉ := by
    exact_mod_cast Int.le_ceil_iff.mpr (by push_cast; linarith [h3])
  omega

/-! ## Variant B letterboxing (`lib.rs`, `compute_scale_and_offset`) -/

/-- Source `WORLD_WIDTH` from `lib.rs`. -/
def WORLD_WIDTH : ℚ := 288

/-- Source `WORLD_HEIGHT` from `lib.rs`. -/
def WORLD_HEIGHT : ℚ := 512

/-- Source `compute_scale_and_offset` from `lib.rs` (screen size is `u32`). -/
def computeScaleAndOffset (screen_w screen_h : ℕ) : ℚ × ℚ × ℚ :=
  let scale_x := (screen_w : ℚ) / WORLD_WIDTH
  let scale_y := (screen_h : ℚ) / WORLD_HEIGHT
  let scale := min scale_x scale_y
  let offset_x := ((screen_w : ℚ) - WORLD_WIDTH * scale) * (1 / 2)
  let offset_y := ((screen_h : ℚ) - WORLD_HEIGHT * scale) * (1 / 2)
  (scale, offset_x, offset_y)

/-! ## Variant B game simulation (`lib.rs`, `Game`) -/

/-- Source `PIPE_GAP` from `lib.rs`. -/
def PIPE_GAP : ℚ := 120

/-- Source `PIPE_SPACING` from `lib.rs`. -/
def PIPE_SPACING : ℚ := 220

/-- Source `PIPE_SPEED` from `lib.rs`. -/
def PIPE_SPEED : ℚ := 120

/-- Source `PIPE_WIDTH` from `lib.rs`. -/
def PIPE_WIDTH : ℚ := 52

/-- Source `BIRD_X` from `lib.rs`. -/
def BIRD_X : ℚ := 72

/-- Source `GRAVITY` from `lib.rs`. -/
def GRAVITY : ℚ := 900

/-- Source `FLAP_VELOCITY` from `lib.rs`. -/
def FLAP_VELOCITY : ℚ := -320

/-- Source `MAX_FALL_SPEED` from `lib.rs`. -/
def MAX_FALL_SPEED : ℚ := 500

/-- Source `MAX_RISE_SPEED` from `lib.rs`. -/
def MAX_RISE_SPEED : ℚ := -480

/-- Source `PIPE_MIN_Y` from `lib.rs`. -/
def PIPE_MIN_Y : ℚ := 160

/-- Source `PIPE_MAX_Y` from `lib.rs`. -/
def PIPE_MAX_Y : ℚ := 360

/-- Source `GROUND_HEIGHT` from `lib.rs`. -/
def GROUND_HEIGHT : ℚ := 100

/-- Source `PipePair` from `lib.rs`. -/
structure PipePair where
  x : ℚ
  gap_center : ℚ
  passed : Bool
deriving Repr, DecidableEq

/-- Source `Game` from `lib.rs`.  The host's `js_sys::Math::random()` source is
embedded as the stream `rng` together with a cursor `rngIdx`; the remaining
fields are those of the source struct (`score` is an `i32`, embedded as ℤ). -/
structure Game where
  bird_y : ℚ
  bird_v : ℚ
  is_dead : Bool
  pipes : List PipePair
  spawn_timer : ℚ
  score : ℤ
  rng : ℕ → ℚ
  rngIdx : ℕ

/-- Source `random_gap` from `lib.rs`, applied to one raw sample of the stream. -/
def randomGap (seed : ℚ) : ℚ :=
  PIPE_MIN_Y + (PIPE_MAX_Y - PIPE_MIN_Y) * seed

/-- Source `Game::populate_initial_pipes` from `lib.rs`: four pipes starting at
`WORLD_WIDTH + 40`, spaced `PIPE_SPACING` apart, each with a fresh random gap. -/
def populateInitialPipes (g : Game) : Game :=
  { g with
    pipes := g.pipes ++ (List.range 4).map (fun i =>
      { x := WORLD_WIDTH + 40 + i * PIPE_SPACING
        gap_center := randomGap (g.rng (g.rngIdx + i))
        passed := false })
    rngIdx := g.rngIdx + 4 }

/-- Source `Game::reset` from `lib.rs`. -/
def Game.reset (g : Game) : Game :=
  populateInitialPipes
    { g with
      bird_y := WORLD_HEIGHT / 2
      bird_v := 0
      is_dead := false
      pipes := []
      spawn_timer := 0
      score := 0 }

/-- Source `Game::new` from `lib.rs`, for a given random stream. -/
def Game.new (rng : ℕ → ℚ) : Game :=
  populateInitialPipes
    { bird_y := WORLD_HEIGHT / 2
      bird_v := 0
      is_dead := false
      pipes := []
      spawn_timer := 0
      score := 0
      rng := rng
      rngIdx := 0 }

/-- The scroll-and-score loop of `Game::step` (`lib.rs` lines 716–722):
every pipe moves left by `PIPE_SPEED * dt`, and a not-yet-passed pipe whose
trailing edge (at its new position) is left of `BIRD_X` is marked passed,
incrementing the score once. -/
def movePass (dt : ℚ) (pipes : List PipePair) (score : ℤ) : List PipePair × ℤ :=
  (pipes.map (fun p =>
      let x := p.x - PIPE_SPEED * dt
      if !p.passed && decide (x + PIPE_WIDTH < BIRD_X) then
        { p with x := x, passed := true }
      else
        { p with x := x }),
   score + pipes.countP (fun p =>
      !p.passed && decide (p.x - PIPE_SPEED * dt + PIPE_WIDTH < BIRD_X)))

/-- The per-pipe collision test of `Game::step` in `lib.rs`. -/
def collidesB (bird_y : ℚ) (p : PipePair) : Bool :=
  let half_gap := PIPE_GAP / 2
  decide (BIRD_X + 17 > p.x) && decide (BIRD_X - 17 < p.x + PIPE_WIDTH) &&
    (decide (bird_y - 12 < p.gap_center - half_gap) ||
     decide (bird_y + 12 > p.gap_center + half_gap))

/-- Source `Game::step` from `lib.rs`. -/
def Game.step (dt : ℚ) (want_jump : Bool) (g : Game) : Game :=
  let g := if want_jump then
      let g := if g.is_dead then g.reset else g
      { g with bird_v := max FLAP_VELOCITY MAX_RISE_SPEED }
    else g
  let g := { g with bird_v := clampQ (g.bird_v + GRAVITY * dt) MAX_RISE_SPEED MAX_FALL_SPEED }
  let g := { g with bird_y := g.bird_y + g.bird_v * dt }
  let g := if g.bird_y < 0 then { g with bird_y := 0, is_dead := true } else g
  let g := if g.bird_y + 12 ≥ WORLD_HEIGHT - GROUND_HEIGHT then { g with is_dead := true } else g
  if g.is_dead then g
  else
    let g := { g with spawn_timer := g.spawn_timer + dt }
    let g := if g.spawn_timer ≥ PIPE_SPACING / PIPE_SPEED then
        { g with
          spawn_timer := g.spawn_timer - PIPE_SPACING / PIPE_SPEED
          pipes := g.pipes ++ [{ x := WORLD_WIDTH + PIPE_WIDTH
                                 gap_center := randomGap (g.rng g.rngIdx)
                                 passed := false }]
          rngIdx := g.rngIdx + 1 }
      else g
    let ms := movePass dt g.pipes g.score
    let g := { g with pipes := ms.1, score := ms.2 }
    let g := { g with pipes := g.pipes.filter (fun p => p.x + PIPE_WIDTH > -80) }
    if g.pipes.any (collidesB g.bird_y) then { g with is_dead := true } else g

/-! ## Variant B background-color query parsing (`lib.rs`, `parse_bg_color`) -/

/-- Whether `hay` starts with `pre` (character lists). -/
def startsWithL : List Char → List Char → Bool
  | [], _ => true
  | _ :: _, [] => false
  | a :: as, b :: bs => a = b && startsWithL as bs

/-- Source `str::find` for a substring, on character lists: index of the first
position where `needle` occurs in `hay`. -/
def findSubstr (needle : List Char) : List Char → Option ℕ
  | [] => if startsWithL needle [] then some 0 else none
  | c :: t =>
    if startsWithL needle (c :: t) then some 0
    else (findSubstr needle t).map (· + 1)

/-- Source `char::to_digit(16)`: hexadecimal digit value.  The source's character
ranges `'0'..='9'`, `'a'..='f'`, `'A'..='F'` are written on code points. -/
def hexVal (c : Char) : Option ℕ :=
  if 48 ≤ c.toNat ∧ c.toNat ≤ 57 then some (c.toNat - 48)
  else if 97 ≤ c.toNat ∧ c.toNat ≤ 102 then some (c.toNat - 87)
  else if 65 ≤ c.toNat ∧ c.toNat ≤ 70 then some (c.toNat - 55)
  else none

/-- The sign handling of `u8::from_str_radix`: a single leading `'+'` is
stripped (`'-'` is rejected for unsigned integers, since it is not stripped
and is not a digit). -/
def stripPlus (s : List Char) : List Char :=
  match s with
  | c :: rest => if c = '+' then rest else s
  | [] => s

/-- Source `u8::from_str_radix(s, 16)`: optional leading `'+'`, then a nonempty run
of hex digits, with an overflow check against the `u8` range. -/
def fromStrRadix16u8 (s : List Char) : Option ℕ :=
  let digits := stripPlus s
  if digits = [] then none
  else
    match digits.foldl
        (fun acc c => acc.bind (fun a => (hexVal c).map (fun d => a * 16 + d)))
        (some 0) with
    | none => none
    | some v => if v < 256 then some v else none

/-- The default sky-blue background triple of `parse_bg_color`. -/
def defaultBg : ℚ × ℚ × ℚ := (36 / 100, 72 / 100, 92 / 100)

/-- The `bg` value of the query: the characters after the first `bg=`
occurrence at `pos`, cut at the first `'&'` (`value.split('&').next()`). -/
def hexOf (query : List Char) (pos : ℕ) : List Char :=
  (query.drop (pos + 3)).takeWhile (· ≠ '&')

/-- Source `parse_bg_color` from `lib.rs`, as a function of the page's query string
(the `window.location().search()` value); the two `if let` layers around the
query fetch are host glue. -/
def parseBgColor (query : List Char) : ℚ × ℚ × ℚ :=
  match findSubstr ['b', 'g', '='] query with
  | none => defaultBg
  | some pos =>
    let hex := hexOf query pos
    if hex.length ≥ 6 then
      match fromStrRadix16u8 (hex.take 2),
            fromStrRadix16u8 ((hex.drop 2).take 2),
            fromStrRadix16u8 ((hex.drop 4).take 2) with
      | some r, some g, some b => ((r : ℚ) / 255, (g : ℚ) / 255, (b : ℚ) / 255)
      | _, _, _ => defaultBg
    else defaultBg

end VB

/-! ## Variant A game simulation (`game.rs`) -/

namespace VA

/-- Source `STEP` from `game.rs`. -/
def STEP : ℚ := 1 / 120

/-- Source `GRAVITY` from `game.rs`. -/
def GRAVITY : ℚ := 2200

/-- Source `FLAP_VELOCITY` from `game.rs`. -/
def FLAP_VELOCITY : ℚ := -750

/-- Source `PIPE_WIDTH` from `game.rs`. -/
def PIPE_WIDTH : ℚ := 140

/-- Source `PIPE_MIN_GAP` from `game.rs`. -/
def PIPE_MIN_GAP : ℚ := 220

/-- Source `PIPE_MAX_GAP` from `game.rs`. -/
def PIPE_MAX_GAP : ℚ := 320

/-- Source `SCROLL_SPEED` from `game.rs`. -/
def SCROLL_SPEED : ℚ := 300

/-- Source `READY_BOB_SPEED` from `game.rs`. -/
def READY_BOB_SPEED : ℚ := 7 / 2

/-- Source `READY_BOB_HEIGHT` from `game.rs`. -/
def READY_BOB_HEIGHT : ℚ := 12

/-- Source `BIRD_SIZE` from `game.rs`. -/
def BIRD_SIZE : ℚ × ℚ := (64, 48)

/-- Source `GameState` from `game.rs`. -/
inductive GState where
  | Ready
  | Running
  | Dead
deriving Repr, DecidableEq

/-- Source `Pipe` from `game.rs`. -/
structure Pipe where
  x : ℚ
  gap_center : ℚ
  gap_height : ℚ
  scored : Bool
deriving Repr, DecidableEq

/-- Source `Game` from `game.rs`.  The `SmallRng` is embedded as the raw sample
stream `rng` with cursor `rngIdx` (two samples per spawned pipe); the palette
is omitted, since it feeds only rendering colors no claim mentions. -/
structure Game where
  state : GState
  screenW : ℚ
  screenH : ℚ
  ground_height : ℚ
  birdX : ℚ
  birdY : ℚ
  bird_vel : ℚ
  bob_time : ℚ
  pipes : List Pipe
  score : ℕ
  best_score : ℕ
  rng : ℕ → ℚ
  rngIdx : ℕ

/-- Source `rng.gen_range(lo..=hi)` applied to a raw stream sample `r`: the result
is `r` clamped into `[lo, hi]`, so (for `lo ≤ hi`) exactly the values of the
closed range are reachable. -/
def genRange (lo hi r : ℚ) : ℚ := max lo (min r hi)

/-- Source `Game::ground_top`. -/
def groundTop (g : Game) : ℚ := g.screenH - g.ground_height

/-- Source `Game::bird_x`: 28% of screen width. -/
def birdXOf (g : Game) : ℚ := g.screenW * (28 / 100)

/-- Source `Game::pipe_spacing`: `clamp(0.45 * screen_width, 260, 420)`. -/
def pipeSpacing (g : Game) : ℚ := clampQ (g.screenW * (45 / 100)) 260 420

/-- Source `Game::bird_bottom`. -/
def birdBottom (g : Game) : ℚ := g.birdY + BIRD_SIZE.2 * (1 / 2)

/-- Source `Game::spawn_pipe_at`, reading two raw samples of the stream starting at
cursor `idx`: the gap height (`gen_range(220..=320)` then a redundant
re-clamp) and the gap center (`gen_range(min_center..=max_center)`). -/
def spawnPipeAt (gTop : ℚ) (rng : ℕ → ℚ) (idx : ℕ) (x : ℚ) : Pipe :=
  let gap_height := clampQ (genRange PIPE_MIN_GAP PIPE_MAX_GAP (rng idx)) PIPE_MIN_GAP PIPE_MAX_GAP
  let min_center := max (gap_height * (1 / 2) + 40) BIRD_SIZE.2
  let max_center := max (gTop - gap_height * (1 / 2) - 40) (min_center + 10)
  let gap_center := genRange min_center max_center (rng (idx + 1))
  { x := x, gap_center := gap_center, gap_height := gap_height, scored := false }

/-- x-coordinate of the last pipe, 0 when there is none
(`pipes.last().map(|p| p.x).unwrap_or(0.0)`). -/
def lastX (pipes : List Pipe) : ℚ := ((pipes.getLast?).map Pipe.x).getD 0

/-- Spawn x-coordinate used by the top-up loop of `Game::scroll_world`
(`pipes.last().map(|p| p.x + spacing).unwrap_or(width + spacing)`). -/
def nextSpawnX (width spacing : ℚ) (pipes : List Pipe) : ℚ :=
  ((pipes.getLast?).map (fun p => p.x + spacing)).getD (width + spacing)

/-- The trailing-pipe top-up loop of `Game::scroll_world`
(`while last_x < width + spacing { push(spawn_pipe_at(x)) }`), returning the
extended pipe list and the advanced rng cursor.  The `0 < spacing` conjunct
only guards termination of the model; `pipe_spacing` is always ≥ 260, so it
never gates a reachable call. -/
def topUp (gTop width spacing : ℚ) (rng : ℕ → ℚ) (idx : ℕ) (pipes : List Pipe) :
    List Pipe × ℕ :=
  if 0 < spacing ∧ lastX pipes < width + spacing then
    topUp gTop width spacing rng (idx + 2)
      (pipes ++ [spawnPipeAt gTop rng idx (nextSpawnX width spacing pipes)])
  else (pipes, idx)
termination_by (⌈(width + spacing - lastX pipes) / spacing⌉).toNat
decreasing_by
  rename_i h
  obtain ⟨hsp, hlt⟩ := h
  have hlast : lastX (pipes ++ [spawnPipeAt gTop rng idx (nextSpawnX width spacing pipes)])
      = nextSpawnX width spacing pipes := by
    simp [lastX, nextSpawnX, List.getLast?_concat, spawnPipeAt]
  rw [hlast]
  rcases hp : pipes.getLast? with _ | p
  · have hx : nextSpawnX width spacing pipes = width + spacing := by
      simp [nextSpawnX, hp]
    rw [hx]
    have hnum : (0 : ℚ) < width + spacing - lastX pipes := by linarith
    have hpos : (0 : ℤ) < ⌈(width + spacing - lastX pipes) / spacing⌉ := by
      rw [Int.ceil_pos]
      positivity
    have hz : ⌈(width + spacing - (width + spacing)) / spacing⌉ = 0 := by
      norm_num
    omega
  · have hx : nextSpawnX width spacing pipes = lastX pipes + spacing := by
      simp [nextSpawnX, lastX, hp]
    rw [hx]
    have harg : (width + spacing - (lastX pipes + spacing)) / spacing
        = (width + spacing - lastX pipes) / spacing - 1 := by
      field_simp
      ring
    have hceil : ⌈(width + spacing - (lastX pipes + spacing)) / spacing⌉
        = ⌈(width + spacing - lastX pipes) / spacing⌉ - 1 := by
      rw [harg]
      exact_mod_cast Int.ceil_sub_int ((width + spacing - lastX pipes) / spacing) 1
    have hpos : (0 : ℤ) < ⌈(width + spacing - lastX pipes) / spacing⌉ := by
      rw [Int.ceil_pos]
      have : (0 : ℚ) < width + spacing - lastX pipes := by linarith
      positivity
    omega

/-- The scoring condition of the loop at `game.rs` lines 201–207: a pipe not
yet scored whose trailing edge has passed the bird's x-position. -/
def scoreCond (bx : ℚ) (p : Pipe) : Bool :=
  !p.scored && decide (p.x + PIPE_WIDTH < bx)

/-- The scoring loop of `Game::scroll_world` (`game.rs` lines 201–207):
mark every pipe meeting `scoreCond` as scored, incrementing the score once
per such pipe. -/
def scorePass (bx : ℚ) (pipes : List Pipe) (score : ℕ) : List Pipe × ℕ :=
  (pipes.map (fun p => if scoreCond bx p then { p with scored := true } else p),
   score + pipes.countP (scoreCond bx))

/-- The first two phases of `Game::scroll_world`: every pipe moves left by
`scroll`, and the front pipe is removed once its right edge passes 20% of the
screen width beyond the left edge. -/
def shiftDrop (scroll width : ℚ) (pipes : List Pipe) : List Pipe :=
  let moved := pipes.map (fun p => { p with x := p.x - scroll })
  match moved with
  | [] => []
  | front :: rest => if front.x + PIPE_WIDTH < -width * (2 / 10) then rest else front :: rest

/-- Source `Game::scroll_world`: shift all pipes left and drop the spent front
pipe (`shiftDrop`), top up the trailing pipes, then run the scoring pass. -/
def scrollWorld (dt : ℚ) (g : Game) : Game :=
  let tu := topUp (groundTop g) g.screenW (pipeSpacing g) g.rng g.rngIdx
    (shiftDrop (SCROLL_SPEED * dt) g.screenW g.pipes)
  let sp := scorePass (birdXOf g) tu.1 g.score
  { g with pipes := sp.1, score := sp.2, rngIdx := tu.2 }

/-- One pipe's test inside `Game::check_collisions`: horizontal overlap with
the bird box and vertical escape from the gap band. -/
def pipeHit (g : Game) (p : Pipe) : Bool :=
  let minX := g.birdX - BIRD_SIZE.1 * (1 / 2)
  let maxX := minX + BIRD_SIZE.1
  let minY := g.birdY - BIRD_SIZE.2 * (1 / 2)
  let maxY := minY + BIRD_SIZE.2
  let gap_half := p.gap_height * (1 / 2)
  !(decide (maxX < p.x) || decide (minX > p.x + PIPE_WIDTH)) &&
    (decide (minY < p.gap_center - gap_half) || decide (maxY > p.gap_center + gap_half))

/-- Source `Game::check_collisions`: ground, pipes, then ceiling; any hit moves the
state to Dead. -/
def checkCollisions (g : Game) : Game :=
  if birdBottom g > groundTop g then { g with state := GState.Dead }
  else if g.pipes.any (pipeHit g) then { g with state := GState.Dead }
  else if g.birdY < BIRD_SIZE.2 * (1 / 2) then { g with state := GState.Dead }
  else g

/-- Source `Game::integrate`. -/
def integrate (dt : ℚ) (g : Game) : Game :=
  let v := g.bird_vel + GRAVITY * dt
  { g with bird_vel := v, birdY := g.birdY + v * dt }

/-- Source `Game::apply_ready_bob`, with the opaque sine stand-in `sinF`. -/
def applyReadyBob (sinF : ℚ → ℚ) (g : Game) : Game :=
  { g with birdY := g.screenH * (45 / 100) + sinF (g.bob_time * READY_BOB_SPEED) * READY_BOB_HEIGHT }

/-- Source `Game::reset_internal`: back to Ready, bird recentered, pipes cleared and
four fresh pipes spawned from `width + 120` on, one spacing apart (each spawn
consumes two raw samples). -/
def resetInternal (g : Game) : Game :=
  let start_x := g.screenW + 120
  let spacing := pipeSpacing g
  { g with
    state := GState.Ready
    birdX := birdXOf g
    birdY := g.screenH * (45 / 100)
    bird_vel := 0
    bob_time := 0
    score := 0
    pipes := (List.range 4).map (fun i =>
      spawnPipeAt (groundTop g) g.rng (g.rngIdx + 2 * i) (start_x + i * spacing))
    rngIdx := g.rngIdx + 8 }

/-- Source `Game::reset`: fold the current score into the best score, then
`reset_internal`. -/
def reset (g : Game) : Game :=
  resetInternal (if g.score > g.best_score then { g with best_score := g.score } else g)

/-- Source `Game::resize`: clamp the screen size to at least 1×1, recompute the
ground height, fold the score into the best score, then `reset_internal`. -/
def resize (width height : ℚ) (g : Game) : Game :=
  let g := { g with screenW := max width 1, screenH := max height 1 }
  let g := { g with ground_height := clampQ (g.screenH * (18 / 100)) 80 200 }
  resetInternal (if g.score > g.best_score then { g with best_score := g.score } else g)

/-- The `Game` literal built inside `Game::new` before the initial resize. -/
def baseGame (rng : ℕ → ℚ) : Game :=
  { state := GState.Ready
    screenW := 1280
    screenH := 720
    ground_height := 120
    birdX := 0
    birdY := 0
    bird_vel := 0
    bob_time := 0
    pipes := []
    score := 0
    best_score := 0
    rng := rng
    rngIdx := 0 }

/-- Source `Game::new`, for a given raw sample stream. -/
def gameNew (rng : ℕ → ℚ) : Game := resize 1280 720 (baseGame rng)

/-- Source `Game::step` from `game.rs`.  `sinF` stands in for `f32::sin`. -/
def step (sinF : ℚ → ℚ) (dt : ℚ) (flap : Bool) (g : Game) : Game :=
  if dt ≤ 0 then g
  else
    match g.state with
    | GState.Ready =>
      let g := { g with bob_time := g.bob_time + dt }
      let g := if flap then { g with state := GState.Running, bird_vel := FLAP_VELOCITY } else g
      applyReadyBob sinF g
    | GState.Running =>
      let g := if flap then { g with bird_vel := FLAP_VELOCITY } else g
      checkCollisions (scrollWorld dt (integrate dt g))
    | GState.Dead =>
      if flap then reset g
      else
        let v := g.bird_vel + GRAVITY * dt
        let y := g.birdY + v * dt
        if y + BIRD_SIZE.2 * (1 / 2) > groundTop g then
          { g with birdY := groundTop g - BIRD_SIZE.2 * (1 / 2), bird_vel := 0 }
        else
          { g with birdY := y, bird_vel := v }

end VA

/-! ## Variant A HUD (`hud.rs`, `Hud::set_score`) -/

namespace Hud

/-- Source `Hud::set_score` from `hud.rs`, as the string it writes into the score
line: `format!("Score: {}  (best {})", score, best)` when `best > 0`, else
`format!("Score: {}", score)`. -/
def setScoreText (score best : ℕ) : String :=
  if best > 0 then
    "Score: " ++ toString score ++ "  (best " ++ toString best ++ ")"
  else
    "Score: " ++ toString score

end Hud

/-! ## Helper lemmas -/

theorem le_clampQ {lo hi : ℚ} (x : ℚ) (h : lo ≤ hi) : lo ≤ clampQ x lo hi :=
  le_min (le_max_right x lo) h

theorem clampQ_le (x lo hi : ℚ) : clampQ x lo hi ≤ hi :=
  min_le_right _ _

theorem drainCount_le : ∀ (n : ℕ) (acc : ℚ), acc ≤ n * VB.STEP → VB.drainCount acc ≤ n := by
  intro n
  induction n with
  | zero =>
    intro acc h
    rw [VB.drainCount, if_neg]
    rw [not_le]
    simp only [Nat.cast_zero, zero_mul] at h
    rw [VB.STEP]
    linarith
  | succ n ih =>
    intro acc h
    rw [VB.drainCount]
    split_ifs with hs
    · have hle : acc - VB.STEP ≤ n * VB.STEP := by
        push_cast at h ⊢
        linarith
      exact Nat.succ_le_succ (ih _ hle)
    · exact Nat.zero_le _

theorem accumulate_fps_report (d : ℚ) (t : VB.FrameTimer) (h : 1 / 2 ≤ t.fps_accum + d) :
    (VB.FrameTimer.accumulate d t).fps
        = ((t.fps_frames : ℚ) + 1) / max (t.fps_accum + d) (1 / 100000) ∧
      (VB.FrameTimer.accumulate d t).fps_accum = 0 ∧
      (VB.FrameTimer.accumulate d t).fps_frames = 0 := by
  simp only [VB.FrameTimer.accumulate]
  split_ifs <;> push_cast <;> simp_all

theorem accumulate_fps_carry (d : ℚ) (t : VB.FrameTimer) (h : t.fps_accum + d < 1 / 2) :
    (VB.FrameTimer.accumulate d t).fps_accum = t.fps_accum + d ∧
      (VB.FrameTimer.accumulate d t).fps_frames = t.fps_frames + 1 := by
  simp only [VB.FrameTimer.accumulate]
  split_ifs with h1 h2 <;> simp_all <;> linarith

theorem accumulateAll_window : ∀ (ds : List ℚ) (t : VB.FrameTimer), ds ≠ [] →
    (∀ n : ℕ, n < ds.length → t.fps_accum + (ds.take n).sum < 1 / 2) →
    t.fps_accum + ds.sum = 1 / 2 →
    (VB.FrameTimer.accumulateAll ds t).fps = ((t.fps_frames : ℚ) + ds.length) / (1 / 2) ∧
      (VB.FrameTimer.accumulateAll ds t).fps_accum = 0 ∧
      (VB.FrameTimer.accumulateAll ds t).fps_frames = 0 := by
  intro ds
  induction ds with
  | nil => intro t hne _ _; exact absurd rfl hne
  | cons d rest ih =>
    intro t _ hpre htot
    have hall : VB.FrameTimer.accumulateAll (d :: rest) t
        = VB.FrameTimer.accumulateAll rest (VB.FrameTimer.accumulate d t) := rfl
    by_cases hr : rest = []
    · subst hr
      have hd : t.fps_accum + d = 1 / 2 := by simpa using htot
      have hrep := accumulate_fps_report d t (le_of_eq hd.symm)
      rw [hall]
      have hone : VB.FrameTimer.accumulateAll [] (VB.FrameTimer.accumulate d t)
          = VB.FrameTimer.accumulate d t := rfl
      rw [hone, hrep.1, hd]
      refine ⟨?_, hrep.2.1, hrep.2.2⟩
      norm_num
    · have hlen : 1 < (d :: rest).length := by
        cases rest with
        | nil => exact absurd rfl hr
        | cons e es => simp
      have hd : t.fps_accum + d < 1 / 2 := by
        have := hpre 1 hlen
        simpa using this
      have hcar := accumulate_fps_carry d t hd
      rw [hall]
      have hmain := ih (VB.FrameTimer.accumulate d t) hr
        (by
          intro n hn
          rw [hcar.1]
          have := hpre (n + 1) (by simpa using Nat.succ_lt_succ hn)
          simpa [add_assoc] using this)
        (by
          rw [hcar.1]
          simpa [add_assoc] using htot)
      refine ⟨?_, hmain.2.1, hmain.2.2⟩
      rw [hmain.1, hcar.2]
      simp only [List.length_cons]
      push_cast
      ring

theorem hexVal_le15 {c : Char} {d : ℕ} (h : VB.hexVal c = some d) : d ≤ 15 := by
  unfold VB.hexVal at h
  split_ifs at h with h1 h2 h3 <;> simp_all <;> omega

theorem hexVal_ne_plus {c : Char} {d : ℕ} (h : VB.hexVal c = some d) : ¬c = '+' := by
  rintro rfl
  rw [show VB.hexVal '+' = none from by decide] at h
  exact Option.noConfusion h

theorem fromStrRadix16u8_pair {c0 c1 : Char} {d0 d1 : ℕ}
    (h0 : VB.hexVal c0 = some d0) (h1 : VB.hexVal c1 = some d1) :
    VB.fromStrRadix16u8 [c0, c1] = some (d0 * 16 + d1) := by
  have hb0 := hexVal_le15 h0
  have hb1 := hexVal_le15 h1
  unfold VB.fromStrRadix16u8 VB.stripPlus
  dsimp only
  rw [if_neg (hexVal_ne_plus h0)]
  simp only [List.foldl, Option.bind, h0, h1, Option.map]
  norm_num
  exact ⟨by simp, fun hge => absurd hge (by omega)⟩

theorem genRange_lower (lo hi r : ℚ) : lo ≤ VA.genRange lo hi r :=
  le_max_left _ _

theorem genRange_upper {lo hi : ℚ} (r : ℚ) (h : lo ≤ hi) : VA.genRange lo hi r ≤ hi :=
  max_le h (min_le_right _ _)

theorem spawnPipeAt_gap_height_mem (gTop x : ℚ) (rng : ℕ → ℚ) (idx : ℕ) :
    VA.PIPE_MIN_GAP ≤ (VA.spawnPipeAt gTop rng idx x).gap_height ∧
      (VA.spawnPipeAt gTop rng idx x).gap_height ≤ VA.PIPE_MAX_GAP := by
  refine ⟨le_clampQ _ ?_, clampQ_le _ _ _⟩
  rw [VA.PIPE_MIN_GAP, VA.PIPE_MAX_GAP]
  norm_num

/-- Pipe-queue coverage invariant of Variant A: a positive screen width, a
nonempty pipe list, and a last pipe at least one spacing beyond the screen's
right edge. -/
def InvA (g : VA.Game) : Prop :=
  0 < g.screenW ∧ g.pipes ≠ [] ∧ g.screenW + VA.pipeSpacing g ≤ VA.lastX g.pipes

theorem pipeSpacing_ge (g : VA.Game) : 260 ≤ VA.pipeSpacing g :=
  le_clampQ _ (by norm_num)

theorem topUp_post (gTop width spacing : ℚ) (rng : ℕ → ℚ) (idx : ℕ) (pipes : List VA.Pipe)
    (hsp : 0 < spacing) (hws : 0 < width + spacing) :
    (VA.topUp gTop width spacing rng idx pipes).1 ≠ [] ∧
      width + spacing ≤ VA.lastX (VA.topUp gTop width spacing rng idx pipes).1 := by
  induction idx, pipes using VA.topUp.induct gTop width spacing rng with
  | case1 idx pipes hcond ih =>
    rw [VA.topUp, if_pos hcond]
    exact ih
  | case2 idx pipes hcond =>
    rw [VA.topUp, if_neg hcond]
    push_neg at hcond
    have hge : width + spacing ≤ VA.lastX pipes := hcond hsp
    refine ⟨?_, hge⟩
    intro hnil
    have hnil' : pipes = [] := hnil
    rw [hnil'] at hge
    simp only [VA.lastX, List.getLast?_nil, Option.map_none', Option.getD_none] at hge
    linarith

theorem scorePass_pipe_x (bx : ℚ) (p : VA.Pipe) :
    (if VA.scoreCond bx p then { p with scored := true } else p).x = p.x := by
  split_ifs <;> rfl

theorem lastX_scorePass (bx : ℚ) (ps : List VA.Pipe) (s : ℕ) :
    VA.lastX (VA.scorePass bx ps s).1 = VA.lastX ps := by
  have h1 := List.getLast?_map
    (fun p => if VA.scoreCond bx p then { p with scored := true } else p) ps
  simp only [VA.scorePass, VA.lastX, h1]
  cases ps.getLast? with
  | none => rfl
  | some p => simp [scorePass_pipe_x]

theorem scorePass_ne_nil (bx : ℚ) (ps : List VA.Pipe) (s : ℕ) (h : ps ≠ []) :
    (VA.scorePass bx ps s).1 ≠ [] := by
  simp only [VA.scorePass]
  simpa using h

theorem InvA_of_same {g g' : VA.Game} (hW : g'.screenW = g.screenW)
    (hP : g'.pipes = g.pipes) (h : InvA g) : InvA g' := by
  unfold InvA VA.pipeSpacing at h ⊢
  rw [hW, hP]
  exact h

theorem inv_resetInternal (g : VA.Game) (h : 0 < g.screenW) : InvA (VA.resetInternal g) := by
  refine ⟨h, by simp [VA.resetInternal], ?_⟩
  have hr : (List.range 4) = [0, 1, 2, 3] := rfl
  have hsp := pipeSpacing_ge g
  have hlast : VA.lastX (VA.resetInternal g).pipes
      = g.screenW + 120 + ((3 : ℕ) : ℚ) * VA.pipeSpacing g := by
    simp only [VA.resetInternal, hr, List.map_cons, List.map_nil, VA.lastX,
      List.getLast?_cons_cons, List.getLast?_singleton]
    rfl
  have hspacing : VA.pipeSpacing (VA.resetInternal g) = VA.pipeSpacing g := rfl
  rw [hlast, hspacing, show (VA.resetInternal g).screenW = g.screenW from rfl]
  push_cast
  linarith

theorem inv_scrollWorld (dt : ℚ) (g : VA.Game) (hw : 0 < g.screenW) :
    InvA (VA.scrollWorld dt g) := by
  have hsp : (0 : ℚ) < VA.pipeSpacing g := lt_of_lt_of_le (by norm_num) (pipeSpacing_ge g)
  have hws : (0 : ℚ) < g.screenW + VA.pipeSpacing g := by linarith
  obtain ⟨hne, hge⟩ := topUp_post (VA.groundTop g) g.screenW (VA.pipeSpacing g) g.rng
    g.rngIdx (VA.shiftDrop (VA.SCROLL_SPEED * dt) g.screenW g.pipes) hsp hws
  have hpipes : (VA.scrollWorld dt g).pipes
      = (VA.scorePass (VA.birdXOf g)
          (VA.topUp (VA.groundTop g) g.screenW (VA.pipeSpacing g) g.rng g.rngIdx
            (VA.shiftDrop (VA.SCROLL_SPEED * dt) g.screenW g.pipes)).1 g.score).1 := rfl
  refine ⟨hw, ?_, ?_⟩
  · rw [hpipes]
    exact scorePass_ne_nil _ _ _ hne
  · have hW : (VA.scrollWorld dt g).screenW = g.screenW := rfl
    have hS : VA.pipeSpacing (VA.scrollWorld dt g) = VA.pipeSpacing g := rfl
    rw [hpipes, hW, hS, lastX_scorePass]
    exact hge

theorem checkCollisions_screenW (g : VA.Game) :
    (VA.checkCollisions g).screenW = g.screenW := by
  unfold VA.checkCollisions
  split_ifs <;> rfl

theorem checkCollisions_pipes (g : VA.Game) :
    (VA.checkCollisions g).pipes = g.pipes := by
  unfold VA.checkCollisions
  split_ifs <;> rfl

theorem inv_step (sinF : ℚ → ℚ) (dt : ℚ) (flap : Bool) (g : VA.Game) (h : InvA g) :
    InvA (VA.step sinF dt flap g) := by
  by_cases hdt : dt ≤ 0
  · simpa [VA.step, hdt] using h
  · rcases hst : g.state with _ | _ | _
    · refine InvA_of_same ?_ ?_ h <;>
        cases flap <;> simp [VA.step, hdt, hst, VA.applyReadyBob]
    · cases flap with
      | false =>
        have hred : VA.step sinF dt false g
            = VA.checkCollisions (VA.scrollWorld dt (VA.integrate dt g)) := by
          simp [VA.step, hdt, hst]
        rw [hred]
        exact InvA_of_same (checkCollisions_screenW _) (checkCollisions_pipes _)
          (inv_scrollWorld dt _ h.1)
      | true =>
        have hred : VA.step sinF dt true g
            = VA.checkCollisions (VA.scrollWorld dt (VA.integrate dt
                { g with bird_vel := VA.FLAP_VELOCITY })) := by
          simp [VA.step, hdt, hst]
        rw [hred]
        exact InvA_of_same (checkCollisions_screenW _) (checkCollisions_pipes _)
          (inv_scrollWorld dt _ h.1)
    · cases flap with
      | true =>
        have hred : VA.step sinF dt true g = VA.reset g := by simp [VA.step, hdt, hst]
        rw [hred]
        unfold VA.reset
        apply inv_resetInternal
        split <;> exact h.1
      | false =>
        refine InvA_of_same ?_ ?_ h <;>
          · simp only [VA.step, hdt, hst, if_neg hdt]
            split_ifs <;> rfl

theorem zip_map_flip_count_A (bx : ℚ) : ∀ ps : List VA.Pipe,
    (ps.zip (ps.map (fun p =>
        if VA.scoreCond bx p then { p with scored := true } else p))).countP
        (fun q => !q.1.scored && q.2.scored)
      = ps.countP (VA.scoreCond bx) := by
  intro ps
  induction ps with
  | nil => rfl
  | cons p t ih =>
    simp only [List.map_cons, List.zip_cons_cons, List.countP_cons, ih]
    by_cases hc : VA.scoreCond bx p
    · have hns : p.scored = false := by
        rw [VA.scoreCond, Bool.and_eq_true] at hc
        simpa using hc.1
      simp [hc, hns]
    · have hff : (!p.scored && p.scored) = false := by cases p.scored <;> rfl
      simp [hc, hff]

theorem zip_map_flip_count_B (dt : ℚ) : ∀ ps : List VB.PipePair,
    (ps.zip (ps.map (fun p =>
        let x := p.x - VB.PIPE_SPEED * dt
        if !p.passed && decide (x + VB.PIPE_WIDTH < VB.BIRD_X) then
          { p with x := x, passed := true }
        else
          { p with x := x }))).countP (fun q => !q.1.passed && q.2.passed)
      = ps.countP (fun p =>
          !p.passed && decide (p.x - VB.PIPE_SPEED * dt + VB.PIPE_WIDTH < VB.BIRD_X)) := by
  intro ps
  induction ps with
  | nil => rfl
  | cons p t ih =>
    simp only [List.map_cons, List.zip_cons_cons, List.countP_cons, ih]
    by_cases hc : (!p.passed && decide (p.x - VB.PIPE_SPEED * dt + VB.PIPE_WIDTH < VB.BIRD_X))
        = true
    · have hns : p.passed = false := by
        rw [Bool.and_eq_true] at hc
        simpa using hc.1
      have hxc : p.x - VB.PIPE_SPEED * dt + VB.PIPE_WIDTH < VB.BIRD_X := by
        rw [Bool.and_eq_true] at hc
        exact of_decide_eq_true hc.2
      simp [hc, hns, hxc]
    · have hff : (!p.passed && p.passed) = false := by cases p.passed <;> rfl
      simp [hc, hff]

theorem scorePass_get (bx : ℚ) (ps : List VA.Pipe) (s : ℕ) (i : ℕ)
    (h1 : i < ps.length) (h2 : i < (VA.scorePass bx ps s).1.length) :
    (VA.scorePass bx ps s).1.get ⟨i, h2⟩
      = if VA.scoreCond bx (ps.get ⟨i, h1⟩) then { ps.get ⟨i, h1⟩ with scored := true }
        else ps.get ⟨i, h1⟩ := by
  simp [VA.scorePass, List.get_eq_getElem, List.getElem_map]

theorem movePass_get (dt : ℚ) (ps : List VB.PipePair) (s : ℤ) (i : ℕ)
    (h1 : i < ps.length) (h2 : i < (VB.movePass dt ps s).1.length) :
    (VB.movePass dt ps s).1.get ⟨i, h2⟩
      = (if !(ps.get ⟨i, h1⟩).passed
            && decide ((ps.get ⟨i, h1⟩).x - VB.PIPE_SPEED * dt + VB.PIPE_WIDTH < VB.BIRD_X) then
          { ps.get ⟨i, h1⟩ with x := (ps.get ⟨i, h1⟩).x - VB.PIPE_SPEED * dt, passed := true }
        else
          { ps.get ⟨i, h1⟩ with x := (ps.get ⟨i, h1⟩).x - VB.PIPE_SPEED * dt }) := by
  simp [VB.movePass, List.get_eq_getElem, List.getElem_map]

theorem checkCollisions_score (g : VA.Game) : (VA.checkCollisions g).score = g.score := by
  unfold VA.checkCollisions
  split_ifs <;> rfl

theorem scrollWorld_score_le (dt : ℚ) (g : VA.Game) :
    g.score ≤ (VA.scrollWorld dt g).score := by
  have hs : (VA.scrollWorld dt g).score
      = (VA.scorePass (VA.birdXOf g)
          (VA.topUp (VA.groundTop g) g.screenW (VA.pipeSpacing g) g.rng g.rngIdx
            (VA.shiftDrop (VA.SCROLL_SPEED * dt) g.screenW g.pipes)).1 g.score).2 := rfl
  rw [hs]
  simp [VA.scorePass]

theorem step_score_mono (sinF : ℚ → ℚ) (dt : ℚ) (flap : Bool) (g : VA.Game)
    (h : ¬(g.state = VA.GState.Dead ∧ flap = true)) :
    g.score ≤ (VA.step sinF dt flap g).score := by
  by_cases hdt : dt ≤ 0
  · simp [VA.step, hdt]
  · rcases hst : g.state with _ | _ | _
    · cases flap <;> simp [VA.step, hdt, hst, VA.applyReadyBob]
    · cases flap with
      | false =>
        have hred : VA.step sinF dt false g
            = VA.checkCollisions (VA.scrollWorld dt (VA.integrate dt g)) := by
          simp [VA.step, hdt, hst]
        rw [hred, checkCollisions_score]
        exact scrollWorld_score_le dt _
      | true =>
        have hred : VA.step sinF dt true g
            = VA.checkCollisions (VA.scrollWorld dt (VA.integrate dt
                { g with bird_vel := VA.FLAP_VELOCITY })) := by
          simp [VA.step, hdt, hst]
        rw [hred, checkCollisions_score]
        exact scrollWorld_score_le dt _
    · cases flap with
      | true => exact absurd ⟨hst, rfl⟩ h
      | false =>
        simp only [VA.step, hst, if_neg hdt, Bool.false_eq_true, if_false]
        split_ifs <;> simp

theorem stepB_score_mono (dt : ℚ) (j : Bool) (g : VB.Game)
    (h : ¬(g.is_dead = true ∧ j = true)) :
    g.score ≤ (VB.Game.step dt j g).score := by
  cases j with
  | false =>
    simp only [VB.Game.step, Bool.false_eq_true, if_false]
    split_ifs <;> simp [VB.movePass] <;> omega
  | true =>
    have hd : g.is_dead = false := by
      cases hdead : g.is_dead
      · rfl
      · exact absurd ⟨hdead, rfl⟩ h
    simp only [VB.Game.step, hd, Bool.false_eq_true, if_false, if_true]
    split_ifs <;> simp [VB.movePass] <;> omega

/-! ## Claim theorems -/

/-- C1, counterexample: after resizing Variant A to a 1×1 screen, the ground
line sits at `ground_top = 1 - 80 = -79`, and the very next spawned pipe has
`gap_center + gap_height/2 = 260 > ground_top - 40`, violating the claimed
upper bound. -/
theorem gap_placement_tiny_screen_cex :
    ¬((VA.spawnPipeAt (VA.groundTop (VA.resize 1 1 (VA.baseGame (fun _ => 0))))
          (VA.resize 1 1 (VA.baseGame (fun _ => 0))).rng
          (VA.resize 1 1 (VA.baseGame (fun _ => 0))).rngIdx 500).gap_center
        + (VA.spawnPipeAt (VA.groundTop (VA.resize 1 1 (VA.baseGame (fun _ => 0))))
            (VA.resize 1 1 (VA.baseGame (fun _ => 0))).rng
            (VA.resize 1 1 (VA.baseGame (fun _ => 0))).rngIdx 500).gap_height * (1 / 2)
      ≤ VA.groundTop (VA.resize 1 1 (VA.baseGame (fun _ => 0))) - 40) := by
  norm_num [VA.spawnPipeAt, VA.resize, VA.resetInternal, VA.groundTop, VA.baseGame,
    VA.genRange, clampQ, VA.PIPE_MIN_GAP, VA.PIPE_MAX_GAP, VA.BIRD_SIZE]

/-- C1, amended: every pipe produced by Variant A's `spawn_pipe_at` keeps at
least 40 px of pipe material above the gap (`gap_center - gap_height/2 ≥ 40`)
on every screen size; the symmetric lower clearance
(`gap_center + gap_height/2 ≤ ground_top - 40`) holds whenever the ground
line is at `ground_top ≥ 410` — which `resize` guarantees for any requested
height of at least 500 px — but fails on degenerate screens such as 1×1,
where the sampling interval's upper end is clamped to `min_center + 10`. -/
theorem gap_placement_amended :
    (∀ (gTop x : ℚ) (rng : ℕ → ℚ) (idx : ℕ),
       40 ≤ (VA.spawnPipeAt gTop rng idx x).gap_center
              - (VA.spawnPipeAt gTop rng idx x).gap_height * (1 / 2)) ∧
    (∀ (gTop x : ℚ) (rng : ℕ → ℚ) (idx : ℕ), 410 ≤ gTop →
       (VA.spawnPipeAt gTop rng idx x).gap_center
           + (VA.spawnPipeAt gTop rng idx x).gap_height * (1 / 2) ≤ gTop - 40) ∧
    (∀ (w h : ℚ) (g : VA.Game), 500 ≤ h → 410 ≤ VA.groundTop (VA.resize w h g)) := by
  refine ⟨?_, ?_, ?_⟩
  · intro gTop x rng idx
    obtain ⟨hg1, hg2⟩ := spawnPipeAt_gap_height_mem gTop x rng idx
    simp only [VA.spawnPipeAt] at hg1 hg2 ⊢
    have hlo := genRange_lower
      (max (clampQ (VA.genRange VA.PIPE_MIN_GAP VA.PIPE_MAX_GAP (rng idx))
          VA.PIPE_MIN_GAP VA.PIPE_MAX_GAP * (1 / 2) + 40) VA.BIRD_SIZE.2)
      (max (gTop - clampQ (VA.genRange VA.PIPE_MIN_GAP VA.PIPE_MAX_GAP (rng idx))
          VA.PIPE_MIN_GAP VA.PIPE_MAX_GAP * (1 / 2) - 40)
        (max (clampQ (VA.genRange VA.PIPE_MIN_GAP VA.PIPE_MAX_GAP (rng idx))
          VA.PIPE_MIN_GAP VA.PIPE_MAX_GAP * (1 / 2) + 40) VA.BIRD_SIZE.2 + 10))
      (rng (idx + 1))
    have hmax := le_max_left
      (clampQ (VA.genRange VA.PIPE_MIN_GAP VA.PIPE_MAX_GAP (rng idx))
          VA.PIPE_MIN_GAP VA.PIPE_MAX_GAP * (1 / 2) + 40) VA.BIRD_SIZE.2
    linarith
  · intro gTop x rng idx hgt
    obtain ⟨hg1, hg2⟩ := spawnPipeAt_gap_height_mem gTop x rng idx
    rw [VA.PIPE_MIN_GAP] at hg1
    rw [VA.PIPE_MAX_GAP] at hg2
    simp only [VA.spawnPipeAt] at hg1 hg2 ⊢
    set gh := clampQ (VA.genRange VA.PIPE_MIN_GAP VA.PIPE_MAX_GAP (rng idx))
      VA.PIPE_MIN_GAP VA.PIPE_MAX_GAP with hgh
    set minC := max (gh * (1 / 2) + 40) VA.BIRD_SIZE.2 with hminC
    have hbs : VA.BIRD_SIZE.2 = 48 := rfl
    have hminC_le : minC ≤ gh * (1 / 2) + 40 := by
      rw [hminC]
      exact max_le le_rfl (by rw [hbs]; linarith)
    have hmaxC_le : max (gTop - gh * (1 / 2) - 40) (minC + 10) ≤ gTop - gh * (1 / 2) - 40 :=
      max_le le_rfl (by linarith)
    have hle : minC ≤ max (gTop - gh * (1 / 2) - 40) (minC + 10) :=
      le_trans (by linarith) (le_max_right _ _)
    have hup := genRange_upper (rng (idx + 1)) hle
    linarith
  · intro w h g hh
    have hscreen : (VA.resize w h g).screenH = max h 1 := by
      simp only [VA.resize, VA.resetInternal]
      split <;> rfl
    have hground : (VA.resize w h g).ground_height
        = clampQ (max h 1 * (18 / 100)) 80 200 := by
      simp only [VA.resize, VA.resetInternal]
      split <;> rfl
    rw [VA.groundTop, hscreen, hground]
    have h1 : max h 1 = h := max_eq_left (by linarith)
    rw [h1]
    have hX : (80 : ℚ) ≤ h * (18 / 100) := by linarith
    have hclamp : clampQ (h * (18 / 100)) 80 200 ≤ h * (18 / 100) :=
      le_trans (min_le_left _ _) (le_of_eq (max_eq_left hX))
    linarith

/-- C3: in Variant A's Dead state a step with a flap request performs a full
reset; a step without one integrates gravity into the velocity and the
velocity into the position, leaves the state, pipes and score untouched, and
once the bird's bottom edge passes the ground line the position is clamped so
the bottom rests exactly on the ground line with the velocity zeroed. -/
theorem dead_state_step (sinF : ℚ → ℚ) (dt : ℚ) (g : VA.Game)
    (hdead : g.state = VA.GState.Dead) (hdt : 0 < dt) :
    VA.step sinF dt true g = VA.reset g ∧
    ((VA.step sinF dt false g).state = VA.GState.Dead ∧
     (VA.step sinF dt false g).pipes = g.pipes ∧
     (VA.step sinF dt false g).score = g.score ∧
     ((VA.groundTop g
         < g.birdY + (g.bird_vel + VA.GRAVITY * dt) * dt + VA.BIRD_SIZE.2 * (1 / 2) ∧
       (VA.step sinF dt false g).birdY + VA.BIRD_SIZE.2 * (1 / 2) = VA.groundTop g ∧
       (VA.step sinF dt false g).bird_vel = 0) ∨
      (g.birdY + (g.bird_vel + VA.GRAVITY * dt) * dt + VA.BIRD_SIZE.2 * (1 / 2)
         ≤ VA.groundTop g ∧
       (VA.step sinF dt false g).birdY = g.birdY + (g.bird_vel + VA.GRAVITY * dt) * dt ∧
       (VA.step sinF dt false g).bird_vel = g.bird_vel + VA.GRAVITY * dt))) := by
  have hnd : ¬dt ≤ 0 := not_le.mpr hdt
  constructor
  · simp [VA.step, hnd, hdead]
  · by_cases hc : VA.groundTop g
        < g.birdY + (g.bird_vel + VA.GRAVITY * dt) * dt + VA.BIRD_SIZE.2 * (1 / 2)
    · simp only [VA.step, hdead]
      rw [if_neg hnd]
      simp only [Bool.false_eq_true, if_false, if_pos hc]
      exact ⟨by trivial, by trivial, by trivial, Or.inl ⟨hc, by ring, by trivial⟩⟩
    · simp only [VA.step, hdead]
      rw [if_neg hnd]
      simp only [Bool.false_eq_true, if_false, if_neg hc]
      exact ⟨by trivial, by trivial, by trivial, Or.inr ⟨not_lt.mp hc, by trivial, by trivial⟩⟩

/-- C2: score monotonicity in both variants.  For the scoring passes
(`game.rs` lines 201–207 and `lib.rs` lines 716–722): the pipe count is
preserved, the score increases by exactly the number of pipes whose
`scored`/`passed` flag flips from false to true in that pass, a flag that is
already true stays true (so each pipe flips at most once), and any flag that
flips does so only because the pipe's trailing edge passed the bird's
x-position.  For the full step functions: the score never decreases except
through the explicit reset taken when a flap/jump arrives in the dead
state. -/
theorem score_monotonicity :
    (∀ (bx : ℚ) (ps : List VA.Pipe) (s : ℕ),
       (VA.scorePass bx ps s).1.length = ps.length ∧
       (VA.scorePass bx ps s).2
         = s + (ps.zip (VA.scorePass bx ps s).1).countP
             (fun q => !q.1.scored && q.2.scored)) ∧
    (∀ (bx : ℚ) (ps : List VA.Pipe) (s : ℕ) (i : ℕ) (h1 : i < ps.length)
       (h2 : i < (VA.scorePass bx ps s).1.length),
       ((ps.get ⟨i, h1⟩).scored = true →
         ((VA.scorePass bx ps s).1.get ⟨i, h2⟩).scored = true) ∧
       (((VA.scorePass bx ps s).1.get ⟨i, h2⟩).scored = true →
         (ps.get ⟨i, h1⟩).scored = true ∨ (ps.get ⟨i, h1⟩).x + VA.PIPE_WIDTH < bx)) ∧
    (∀ (dt : ℚ) (ps : List VB.PipePair) (s : ℤ),
       (VB.movePass dt ps s).1.length = ps.length ∧
       (VB.movePass dt ps s).2
         = s + (ps.zip (VB.movePass dt ps s).1).countP
             (fun q => !q.1.passed && q.2.passed)) ∧
    (∀ (dt : ℚ) (ps : List VB.PipePair) (s : ℤ) (i : ℕ) (h1 : i < ps.length)
       (h2 : i < (VB.movePass dt ps s).1.length),
       ((ps.get ⟨i, h1⟩).passed = true →
         ((VB.movePass dt ps s).1.get ⟨i, h2⟩).passed = true) ∧
       (((VB.movePass dt ps s).1.get ⟨i, h2⟩).passed = true →
         (ps.get ⟨i, h1⟩).passed = true ∨
           (ps.get ⟨i, h1⟩).x - VB.PIPE_SPEED * dt + VB.PIPE_WIDTH < VB.BIRD_X)) ∧
    (∀ (sinF : ℚ → ℚ) (dt : ℚ) (flap : Bool) (g : VA.Game),
       ¬(g.state = VA.GState.Dead ∧ flap = true) →
       g.score ≤ (VA.step sinF dt flap g).score) ∧
    (∀ (dt : ℚ) (j : Bool) (g : VB.Game),
       ¬(g.is_dead = true ∧ j = true) →
       g.score ≤ (VB.Game.step dt j g).score) := by
  refine ⟨?_, ?_, ?_, ?_, step_score_mono, stepB_score_mono⟩
  · intro bx ps s
    constructor
    · simp [VA.scorePass]
    · simp only [VA.scorePass]
      rw [zip_map_flip_count_A]
  · intro bx ps s i h1 h2
    constructor
    · intro hsc
      rw [scorePass_get bx ps s i h1 h2]
      split_ifs
      · simp
      · simpa using hsc
    · intro hsc
      rw [scorePass_get bx ps s i h1 h2] at hsc
      by_cases hcond : VA.scoreCond bx (ps.get ⟨i, h1⟩)
      · right
        rw [VA.scoreCond, Bool.and_eq_true] at hcond
        exact of_decide_eq_true hcond.2
      · left
        rw [if_neg hcond] at hsc
        exact hsc
  · intro dt ps s
    constructor
    · simp [VB.movePass]
    · simp only [VB.movePass]
      rw [zip_map_flip_count_B]
  · intro dt ps s i h1 h2
    constructor
    · intro hsc
      rw [movePass_get dt ps s i h1 h2]
      split_ifs
      · simp
      · simpa using hsc
    · intro hsc
      rw [movePass_get dt ps s i h1 h2] at hsc
      by_cases hcond : (!(ps.get ⟨i, h1⟩).passed
          && decide ((ps.get ⟨i, h1⟩).x - VB.PIPE_SPEED * dt + VB.PIPE_WIDTH < VB.BIRD_X))
          = true
      · right
        rw [Bool.and_eq_true] at hcond
        exact of_decide_eq_true hcond.2
      · left
        rw [if_neg hcond] at hsc
        exact hsc

/-- Witness for C2: a scored pipe stays scored through the scoring pass, and
concrete steps of both variants do not decrease the score. -/
theorem score_monotonicity_witness :
    ((VA.scorePass 72 [{ x := 0, gap_center := 0, gap_height := 220, scored := true }] 5).1.get
        ⟨0, by simp [VA.scorePass]⟩).scored = true ∧
    (VA.resetInternal (VA.baseGame (fun _ => 0))).score
        ≤ (VA.step (fun _ => 0) 1 false (VA.resetInternal (VA.baseGame (fun _ => 0)))).score ∧
    (VB.Game.new (fun _ => 0)).score
        ≤ (VB.Game.step 1 false (VB.Game.new (fun _ => 0))).score :=
  ⟨(score_monotonicity.2.1 72 [{ x := 0, gap_center := 0, gap_height := 220, scored := true }]
      5 0 (by simp) (by simp [VA.scorePass])).1 rfl,
   score_monotonicity.2.2.2.2.1 (fun _ => 0) 1 false
     (VA.resetInternal (VA.baseGame (fun _ => 0))) (by simp),
   score_monotonicity.2.2.2.2.2 1 false (VB.Game.new (fun _ => 0)) (by simp)⟩

/-- C4: Variant A's pipe-queue coverage.  The invariant `InvA` (nonempty pipe
list with the last pipe at least one spacing beyond the right screen edge) is
established by `reset_internal` and preserved by every step, so after any
step from an invariant state the pipe list is nonempty and the last pipe's x
position is at least `screen_width + pipe_spacing` minus one scroll increment
`SCROLL_SPEED * dt`. -/
theorem pipe_queue_coverage :
    (∀ g : VA.Game, 0 < g.screenW → InvA (VA.resetInternal g)) ∧
    (∀ (sinF : ℚ → ℚ) (dt : ℚ) (flap : Bool) (g : VA.Game),
       InvA g → InvA (VA.step sinF dt flap g)) ∧
    (∀ (sinF : ℚ → ℚ) (dt : ℚ) (flap : Bool) (g : VA.Game), InvA g → 0 ≤ dt →
       (VA.step sinF dt flap g).pipes ≠ [] ∧
       (VA.step sinF dt flap g).screenW + VA.pipeSpacing (VA.step sinF dt flap g)
           - VA.SCROLL_SPEED * dt
         ≤ VA.lastX (VA.step sinF dt flap g).pipes) := by
  refine ⟨inv_resetInternal, inv_step, ?_⟩
  intro sinF dt flap g h hdt
  obtain ⟨_, hne, hlast⟩ := inv_step sinF dt flap g h
  refine ⟨hne, ?_⟩
  have hscroll : 0 ≤ VA.SCROLL_SPEED * dt := by
    rw [VA.SCROLL_SPEED]
    nlinarith
  linarith

/-- Witness for C4 at a concrete freshly reset game and step. -/
theorem pipe_queue_coverage_witness :
    (VA.step (fun _ => 0) (1 / 120) false (VA.resetInternal (VA.baseGame (fun _ => 0)))).pipes
        ≠ [] ∧
      (VA.step (fun _ => 0) (1 / 120) false
            (VA.resetInternal (VA.baseGame (fun _ => 0)))).screenW
          + VA.pipeSpacing (VA.step (fun _ => 0) (1 / 120) false
            (VA.resetInternal (VA.baseGame (fun _ => 0))))
          - VA.SCROLL_SPEED * (1 / 120)
        ≤ VA.lastX (VA.step (fun _ => 0) (1 / 120) false
            (VA.resetInternal (VA.baseGame (fun _ => 0)))).pipes :=
  pipe_queue_coverage.2.2 (fun _ => 0) (1 / 120) false
    (VA.resetInternal (VA.baseGame (fun _ => 0)))
    (pipe_queue_coverage.1 (VA.baseGame (fun _ => 0)) (by norm_num [VA.baseGame]))
    (by norm_num)

/-- Witness for C3 at a concrete dead state. -/
theorem dead_state_step_witness :
    VA.step (fun _ => 0) (1 / 120) true { VA.baseGame (fun _ => 0) with state := VA.GState.Dead }
        = VA.reset { VA.baseGame (fun _ => 0) with state := VA.GState.Dead } ∧
      (VA.step (fun _ => 0) (1 / 120) false
          { VA.baseGame (fun _ => 0) with state := VA.GState.Dead }).state = VA.GState.Dead :=
  ⟨(dead_state_step (fun _ => 0) (1 / 120)
      { VA.baseGame (fun _ => 0) with state := VA.GState.Dead } rfl (by norm_num)).1,
   (dead_state_step (fun _ => 0) (1 / 120)
      { VA.baseGame (fun _ => 0) with state := VA.GState.Dead } rfl (by norm_num)).2.1⟩

/-- Witness for C1's amended theorem at concrete parameters. -/
theorem gap_placement_amended_witness :
    (40 ≤ (VA.spawnPipeAt 500 (fun _ => 0) 0 100).gap_center
            - (VA.spawnPipeAt 500 (fun _ => 0) 0 100).gap_height * (1 / 2)) ∧
    ((VA.spawnPipeAt 500 (fun _ => 0) 0 100).gap_center
        + (VA.spawnPipeAt 500 (fun _ => 0) 0 100).gap_height * (1 / 2) ≤ 500 - 40) ∧
    (410 ≤ VA.groundTop (VA.resize 800 600 (VA.baseGame (fun _ => 0)))) :=
  ⟨gap_placement_amended.1 500 100 (fun _ => 0) 0,
   gap_placement_amended.2.1 500 100 (fun _ => 0) 0 (by norm_num),
   gap_placement_amended.2.2 800 600 (VA.baseGame (fun _ => 0)) (by norm_num)⟩

/-- C10: in Variant A, a `Game::step` call with `dt ≤ 0` returns immediately
and leaves the whole game state unchanged, whatever the flap flag. -/
theorem step_nonpositive_dt_noop (sinF : ℚ → ℚ) (dt : ℚ) (flap : Bool) (g : VA.Game)
    (h : dt ≤ 0) : VA.step sinF dt flap g = g := by
  simp [VA.step, h]

/-- Witness for C10 at a concrete state. -/
theorem step_nonpositive_dt_noop_witness :
    VA.step (fun _ => 0) 0 true (VA.baseGame (fun _ => 0)) = VA.baseGame (fun _ => 0) :=
  step_nonpositive_dt_noop (fun _ => 0) 0 true (VA.baseGame (fun _ => 0)) (by norm_num)

/-- C5, counterexample: for score 3 and best score 5 the HUD renders
`"Score: 3  (best 5)"`, not `"Score: 3  (best: 5)"` as claimed — there is no
colon after `best` in the source's format string. -/
theorem set_score_colon_cex : Hud.setScoreText 3 5 ≠ "Score: 3  (best: 5)" := by
  decide

/-- C5, amended: `Hud::set_score` renders `"Score: N"` while the best score
is zero, and `"Score: N  (best M)"` (no colon after `best`) once a non-zero
best score exists. -/
theorem set_score_format_amended (score best : ℕ) :
    (best = 0 → Hud.setScoreText score best = "Score: " ++ toString score) ∧
    (0 < best →
      Hud.setScoreText score best =
        "Score: " ++ toString score ++ "  (best " ++ toString best ++ ")") := by
  constructor
  · rintro rfl
    simp [Hud.setScoreText]
  · intro hb
    simp [Hud.setScoreText, hb]

/-- Witness for C5's amended theorem at concrete scores. -/
theorem set_score_format_amended_witness :
    Hud.setScoreText 2 0 = "Score: " ++ toString 2 ∧
    Hud.setScoreText 2 7 = "Score: " ++ toString 2 ++ "  (best " ++ toString 7 ++ ")" :=
  ⟨(set_score_format_amended 2 0).1 rfl, (set_score_format_amended 2 7).2 (by decide)⟩

/-- C6: Variant B's letterbox computation yields scale exactly 2 and zero
offsets for a 576×1024 screen, and for any screen whose aspect ratio differs
from 288:512 exactly one of the two offsets is positive while the other is
zero. -/
theorem letterbox_scaling :
    VB.computeScaleAndOffset 576 1024 = (2, 0, 0) ∧
    ∀ w h : ℕ, 512 * w ≠ 288 * h →
      ((VB.computeScaleAndOffset w h).2.1 = 0 ∧ 0 < (VB.computeScaleAndOffset w h).2.2) ∨
      (0 < (VB.computeScaleAndOffset w h).2.1 ∧ (VB.computeScaleAndOffset w h).2.2 = 0) := by
  constructor
  · norm_num [VB.computeScaleAndOffset, VB.WORLD_WIDTH, VB.WORLD_HEIGHT]
  · intro w h hne
    have hq : 512 * (w : ℚ) ≠ 288 * (h : ℚ) := by exact_mod_cast hne
    simp only [VB.computeScaleAndOffset, VB.WORLD_WIDTH, VB.WORLD_HEIGHT]
    rcases lt_trichotomy ((w : ℚ) / 288) ((h : ℚ) / 512) with hlt | heq | hgt
    · left
      rw [min_eq_left hlt.le]
      constructor
      · have hc : (288 : ℚ) * ((w : ℚ) / 288) = (w : ℚ) := by field_simp
        rw [hc]
        ring
      · have h1 : (512 : ℚ) * ((w : ℚ) / 288) < 512 * ((h : ℚ) / 512) := by linarith
        have h2 : (512 : ℚ) * ((h : ℚ) / 512) = (h : ℚ) := by field_simp
        nlinarith
    · exfalso
      apply hq
      field_simp at heq
      linarith
    · right
      rw [min_eq_right hgt.le]
      constructor
      · have h1 : (288 : ℚ) * ((h : ℚ) / 512) < 288 * ((w : ℚ) / 288) := by linarith
        have h2 : (288 : ℚ) * ((w : ℚ) / 288) = (w : ℚ) := by field_simp
        nlinarith
      · have hc : (512 : ℚ) * ((h : ℚ) / 512) = (h : ℚ) := by field_simp
        rw [hc]
        ring

/-- Witness for C6 at a 288×1024 screen (taller than the world aspect). -/
theorem letterbox_scaling_witness :
    ((VB.computeScaleAndOffset 288 1024).2.1 = 0 ∧ 0 < (VB.computeScaleAndOffset 288 1024).2.2) ∨
    (0 < (VB.computeScaleAndOffset 288 1024).2.1 ∧ (VB.computeScaleAndOffset 288 1024).2.2 = 0) :=
  letterbox_scaling.2 288 1024 (by decide)

/-- C8: in Variant B, after every `FrameTimer::accumulate` call the fixed-step
accumulator is at most five fixed steps, so the drain loop of a single frame
callback executes at most 5 simulation steps. -/
theorem accumulator_cap :
    (∀ (t : VB.FrameTimer) (dt : ℚ),
      (VB.FrameTimer.accumulate dt t).accumulator ≤ VB.STEP * 5) ∧
    (∀ acc : ℚ, acc ≤ VB.STEP * 5 → VB.drainCount acc ≤ 5) := by
  constructor
  · intro t dt
    simp only [VB.FrameTimer.accumulate]
    split_ifs with h1 h2 h3 <;> simp_all
  · intro acc h
    exact drainCount_le 5 acc (by push_cast; linarith)

/-- C7: for any nonempty stream of positive frame deltas whose proper-prefix
sums stay below 0.5 s and whose total is exactly 0.5 s, fed to a timer at the
start of a sampling window (zero elapsed time, zero frames), the reported FPS
after the final `accumulate` equals `N / 0.5`, and the elapsed-time
accumulator and frame counter are both reset to zero. -/
theorem fps_sampling_window (ds : List ℚ) (t : VB.FrameTimer)
    (hne : ds ≠ []) (_hpos : ∀ d ∈ ds, 0 < d)
    (hacc : t.fps_accum = 0) (hfr : t.fps_frames = 0)
    (hpre : ∀ n : ℕ, n < ds.length → (ds.take n).sum < 1 / 2)
    (htot : ds.sum = 1 / 2) :
    (VB.FrameTimer.accumulateAll ds t).fps = (ds.length : ℚ) / (1 / 2) ∧
      (VB.FrameTimer.accumulateAll ds t).fps_accum = 0 ∧
      (VB.FrameTimer.accumulateAll ds t).fps_frames = 0 := by
  have h := accumulateAll_window ds t hne
    (by intro n hn; rw [hacc]; simpa using hpre n hn)
    (by rw [hacc]; simpa using htot)
  refine ⟨?_, h.2.1, h.2.2⟩
  rw [h.1, hfr]
  norm_num

/-- Witness for C7: two deltas of 0.25 s report an FPS of 4. -/
theorem fps_sampling_window_witness :
    (VB.FrameTimer.accumulateAll [1 / 4, 1 / 4] ⟨0, 0, 0, 0⟩).fps
        = (([1 / 4, 1 / 4] : List ℚ).length : ℚ) / (1 / 2) ∧
      (VB.FrameTimer.accumulateAll [1 / 4, 1 / 4] ⟨0, 0, 0, 0⟩).fps_accum = 0 ∧
      (VB.FrameTimer.accumulateAll [1 / 4, 1 / 4] ⟨0, 0, 0, 0⟩).fps_frames = 0 :=
  fps_sampling_window [1 / 4, 1 / 4] ⟨0, 0, 0, 0⟩ (by simp)
    (by norm_num) rfl rfl
    (by
      intro n hn
      match n with
      | 0 => norm_num
      | 1 => norm_num
      | n + 2 => simp at hn)
    (by norm_num)

/-- C9, amended: `parse_bg_color` returns the default sky-blue triple when
the query has no `bg=` occurrence, or the `bg` value (cut at the first `&`)
has fewer than six characters, or any of its three leading two-character
groups fails to parse as a hexadecimal `u8` — parsing that also accepts an
optional leading plus sign, so six characters that are not all hex digits can
still be accepted; when its first six characters are plain hex digits the
result is `[R/255, G/255, B/255]`. -/
theorem bg_color_parsing_amended :
    (∀ q : List Char, VB.findSubstr ['b', 'g', '='] q = none →
       VB.parseBgColor q = VB.defaultBg) ∧
    (∀ (q : List Char) (pos : ℕ), VB.findSubstr ['b', 'g', '='] q = some pos →
       (VB.hexOf q pos).length < 6 → VB.parseBgColor q = VB.defaultBg) ∧
    (∀ (q : List Char) (pos : ℕ), VB.findSubstr ['b', 'g', '='] q = some pos →
       6 ≤ (VB.hexOf q pos).length →
       (VB.fromStrRadix16u8 ((VB.hexOf q pos).take 2) = none ∨
        VB.fromStrRadix16u8 (((VB.hexOf q pos).drop 2).take 2) = none ∨
        VB.fromStrRadix16u8 (((VB.hexOf q pos).drop 4).take 2) = none) →
       VB.parseBgColor q = VB.defaultBg) ∧
    (∀ (q : List Char) (pos : ℕ) (c0 c1 c2 c3 c4 c5 : Char) (rest : List Char)
       (d0 d1 d2 d3 d4 d5 : ℕ),
       VB.findSubstr ['b', 'g', '='] q = some pos →
       VB.hexOf q pos = c0 :: c1 :: c2 :: c3 :: c4 :: c5 :: rest →
       VB.hexVal c0 = some d0 → VB.hexVal c1 = some d1 →
       VB.hexVal c2 = some d2 → VB.hexVal c3 = some d3 →
       VB.hexVal c4 = some d4 → VB.hexVal c5 = some d5 →
       VB.parseBgColor q =
         (((d0 * 16 + d1 : ℕ) : ℚ) / 255, ((d2 * 16 + d3 : ℕ) : ℚ) / 255,
          ((d4 * 16 + d5 : ℕ) : ℚ) / 255)) := by
  refine ⟨?_, ?_, ?_, ?_⟩
  · intro q h
    simp only [VB.parseBgColor, h]
  · intro q pos h hlen
    simp only [VB.parseBgColor, h]
    rw [if_neg (by omega)]
  · intro q pos h hlen hfail
    simp only [VB.parseBgColor, h]
    rw [if_pos hlen]
    rcases hfail with hf | hf | hf
    · rw [hf]
    · rw [hf]
      cases VB.fromStrRadix16u8 ((VB.hexOf q pos).take 2) <;> rfl
    · rw [hf]
      cases VB.fromStrRadix16u8 ((VB.hexOf q pos).take 2) <;>
        cases VB.fromStrRadix16u8 (((VB.hexOf q pos).drop 2).take 2) <;> rfl
  · intro q pos c0 c1 c2 c3 c4 c5 rest d0 d1 d2 d3 d4 d5 h hhex h0 h1 h2 h3 h4 h5
    simp only [VB.parseBgColor, h, hhex]
    rw [if_pos (by simp)]
    have e0 : (c0 :: c1 :: c2 :: c3 :: c4 :: c5 :: rest).take 2 = [c0, c1] := rfl
    have e1 : ((c0 :: c1 :: c2 :: c3 :: c4 :: c5 :: rest).drop 2).take 2 = [c2, c3] := rfl
    have e2 : ((c0 :: c1 :: c2 :: c3 :: c4 :: c5 :: rest).drop 4).take 2 = [c4, c5] := rfl
    rw [e0, e1, e2, fromStrRadix16u8_pair h0 h1, fromStrRadix16u8_pair h2 h3,
      fromStrRadix16u8_pair h4 h5]

/-- Concrete query string used to separate the hex-digit reading of the spec
from the source's `from_str_radix` behavior. -/
def plusQuery : List Char := ['?', 'b', 'g', '=', '+', '1', '+', '2', '+', '3']

/-- C9, counterexample: on `?bg=+1+2+3` the first six characters of the `bg`
value are not all hexadecimal digits, yet `parse_bg_color` does not fall back
to the default color — `u8::from_str_radix` accepts a leading `+`, so the
value parses as (1, 2, 3). -/
theorem bg_color_plus_sign_cex :
    ((VB.hexOf plusQuery 1).take 6).all (fun c => (VB.hexVal c).isSome) = false ∧
    VB.findSubstr ['b', 'g', '='] plusQuery = some 1 ∧
    VB.parseBgColor plusQuery ≠ VB.defaultBg := by
  refine ⟨by decide, by decide, ?_⟩
  have h1 : VB.findSubstr ['b', 'g', '='] plusQuery = some 1 := by decide
  have h2 : VB.hexOf plusQuery 1 = ['+', '1', '+', '2', '+', '3'] := by decide
  have hr : VB.fromStrRadix16u8 ((VB.hexOf plusQuery 1).take 2) = some 1 := by decide
  have hg : VB.fromStrRadix16u8 (((VB.hexOf plusQuery 1).drop 2).take 2) = some 2 := by decide
  have hb : VB.fromStrRadix16u8 (((VB.hexOf plusQuery 1).drop 4).take 2) = some 3 := by decide
  have hp : VB.parseBgColor plusQuery
      = ((1 : ℚ) / 255, (2 : ℚ) / 255, (3 : ℚ) / 255) := by
    simp only [VB.parseBgColor, h1]
    rw [if_pos (by rw [h2]; simp), hr, hg, hb]
    norm_num
  rw [hp]
  simp only [VB.defaultBg, Prod.ext_iff]
  norm_num

/-- Witness for C9's amended theorem on a valid six-hex-digit query. -/
theorem bg_color_parsing_amended_witness :
    VB.parseBgColor "?bg=ff0080".toList =
      (((15 * 16 + 15 : ℕ) : ℚ) / 255, ((0 * 16 + 0 : ℕ) : ℚ) / 255,
       ((8 * 16 + 0 : ℕ) : ℚ) / 255) :=
  bg_color_parsing_amended.2.2.2 "?bg=ff0080".toList 1 'f' 'f' '0' '0' '8' '0' []
    15 15 0 0 8 0 (by decide) (by decide) (by decide) (by decide) (by decide)
    (by decide) (by decide) (by decide)

/-- Witness for C8 at a concrete timer state and accumulator value. -/
theorem accumulator_cap_witness :
    (VB.FrameTimer.accumulate 1 ⟨0, 0, 0, 0⟩).accumulator ≤ VB.STEP * 5 ∧
    VB.drainCount (1 / 24) ≤ 5 :=
  ⟨accumulator_cap.1 ⟨0, 0, 0, 0⟩ 1, accumulator_cap.2 (1 / 24) (by norm_num [VB.STEP])⟩

end FlappyNerd
